import Mathlib

/-!
# Verification of the retry-axios retry policy engine

Shallow embedding of `src/index.ts` (the current version of the file: the
interceptor with `jitter`, the `errors` history and the capped custom
`shouldRetry`).  JavaScript numbers that take part in delay arithmetic are
modelled as rationals (`ℚ`); counters and HTTP status codes as naturals.
Optional (possibly-`undefined`) fields are modelled with `Option`.
-/

namespace Rax

/-- `backoffType`: 'linear' | 'static' | 'exponential' (src/index.ts line 441). -/
inductive BackoffType where
  | linear
  | static
  | exponential
deriving DecidableEq, Repr

/-- `jitter`: 'none' | 'full' | 'equal' (src/index.ts line 452).
`noneJ` stands for the string 'none'. -/
inductive JitterType where
  | noneJ
  | full
  | equal
deriving DecidableEq, Repr

/-- Abstraction of a `Retry-After` header string: `numValue` is the result of
JavaScript `Number(header)` when that is not `NaN`; `dateValue` is the result
of `Date.parse(header)` (epoch milliseconds) when that is not `NaN`.  A given
header string determines both fields. -/
structure RAHeader where
  numValue : Option ℚ
  dateValue : Option ℤ
deriving DecidableEq, Repr

/-- The part of an axios response the engine reads: `status`, and the
`'retry-after'` header.  `retryAfter = some h` models a truthy header value
(the code tests `axiosError.response?.headers?.['retry-after']` for
truthiness; an absent or empty header is `none`).  `status = 0` models a
falsy/absent status (the code tests `error.response?.status` for truthiness). -/
structure Response where
  status : Nat
  retryAfter : Option RAHeader
deriving DecidableEq, Repr

/-- The `RetryConfig` fields the engine reads and writes (src/index.ts lines
387–475).  The callback fields (`onError`, `onRetryAttempt`, `shouldRetry`)
are modelled separately as the environment of a step, since they are opaque
functions that the config-resolution code never touches.  `errors` stores the
identities of the failures (their arrival index in the chain) instead of the
circular error objects themselves. -/
structure RetryConfig where
  retry : Option Nat := none
  currentRetryAttempt : Option Nat := none
  retryDelay : Option ℚ := none
  httpMethodsToRetry : Option (List String) := none
  statusCodesToRetry : Option (List (Nat × Nat)) := none
  backoffType : Option BackoffType := none
  jitter : Option JitterType := none
  checkRetryAfter : Option Bool := none
  maxRetryAfter : Option ℚ := none
  maxRetryDelay : Option ℚ := none
  errors : Option (List Nat) := none
deriving DecidableEq, Repr

/-- The request configuration attached to an error: its HTTP `method` and the
`raxConfig` slot. -/
structure ReqConfig where
  method : Option String := none
  raxConfig : Option RetryConfig := none
deriving DecidableEq, Repr

/-- The axios error object as the engine sees it: the cancellation marker
(`isCancel(error)`), the optional response, and the optional request
configuration. -/
structure AxiosErr where
  isCancel : Bool := false
  response : Option Response := none
  config : Option ReqConfig := none
deriving DecidableEq, Repr

/-- `getConfig` (src/index.ts lines 796–800): return `error.config.raxConfig`
when `error.config` is present, `undefined` otherwise.  A pure read: the
source performs no mutation. -/
def getConfig (error : AxiosErr) : Option RetryConfig :=
  match error.config with
  | some c => c.raxConfig
  | none => none

/-- Default `httpMethodsToRetry` (src/index.ts lines 593–599). -/
def defaultMethods : List String := ["GET", "HEAD", "PUT", "OPTIONS", "DELETE"]

/-- Default `statusCodesToRetry` (`retryRanges`, src/index.ts lines 482–493). -/
def retryRanges : List (Nat × Nat) := [(100, 199), (429, 429), (500, 599)]

/-- Config resolution in `onError` (src/index.ts lines 587–608): every field
the engine needs receives its documented default when unset.  `jitter`,
`maxRetryDelay` and `errors` are not defaulted here (`jitter` is defaulted at
its use site, line 709).  The model's inputs are already lists, so
`normalizeArray` is the identity on present values and preserves `undefined`. -/
def resolveConfig (c : RetryConfig) : RetryConfig :=
  { c with
    currentRetryAttempt := some (c.currentRetryAttempt.getD 0)
    retry := some (c.retry.getD 3)
    retryDelay := some (c.retryDelay.getD 100)
    backoffType := some (c.backoffType.getD .exponential)
    httpMethodsToRetry := some (c.httpMethodsToRetry.getD defaultMethods)
    checkRetryAfter := some (c.checkRetryAfter.getD true)
    maxRetryAfter := some (c.maxRetryAfter.getD 300000)
    statusCodesToRetry := some (c.statusCodesToRetry.getD retryRanges) }

/-- `parseRetryAfter` (src/index.ts lines 566–580): integer (or numeric)
seconds are converted to milliseconds; otherwise an HTTP date is converted to
its difference from `now` (epoch ms); otherwise `undefined`. -/
def parseRetryAfter (now : ℤ) (header : RAHeader) : Option ℚ :=
  match header.numValue with
  | some v => some (v * 1000)
  | none =>
    match header.dateValue with
    | some dateTime => some ((dateTime - now : ℤ) : ℚ)
    | none => none

/-- JavaScript `String.prototype.toUpperCase()` on ASCII method names:
uppercase every character.  (Defined by structural recursion over the
character list so the kernel can evaluate it; `String.toUpper` is the same
map but defined by well-founded recursion on positions.) -/
def jsToUpper (s : String) : String := ⟨s.data.map Char.toUpper⟩

/-- `shouldRetryRequest` (src/index.ts lines 746–790), the default
eligibility predicate.  Reads the `raxConfig` attached to `error.config`
(modelled via `getConfig`; the source would throw a `TypeError` when
`error.config` is absent, a case outside every claim's domain, where the
model returns `false`).  Checks, in source order: config present and
`retry ≠ 0`; `currentRetryAttempt < retry`; the uppercased request method is
among `httpMethodsToRetry` (a falsy/empty method stops); when a truthy
response status is present it must fall in one of the inclusive
`statusCodesToRetry` ranges; a failure with no response passes that check. -/
def shouldRetryRequest (error : AxiosErr) : Bool :=
  match getConfig error with
  | none => false
  | some config =>
    if config.retry = some 0 then false
    else if config.currentRetryAttempt.getD 0 ≥ config.retry.getD 0 then false
    else
      match error.config.bind ReqConfig.method with
      | none => false
      | some m =>
        if m = "" then false
        else if ¬ ((config.httpMethodsToRetry.getD []).contains (jsToUpper m)) then false
        else
          match error.response with
          | some resp =>
            if resp.status ≠ 0 then
              if (config.statusCodesToRetry.getD []).any
                  (fun p => decide (p.1 ≤ resp.status) && decide (resp.status ≤ p.2)) then
                true
              else false
            else true
          | none => true

/-- The delay calculation of the backoff block (src/index.ts lines 691–723),
entered when the Retry-After logic did not set a delay: `linear` is
`retrycount × 1000` ignoring `retryDelay`; `static` is `retryDelay`;
`exponential` is `((2^retrycount − 1) / 2) × retryDelay`, with jitter applied
only in the exponential branch (`full`: `Math.random() * delay`; `equal`:
`delay/2 + Math.random() * (delay/2)`); finally the delay is clamped by
`maxRetryDelay` when that is a number.  `r` models the `Math.random()` draw. -/
def calcDelay (bt : BackoffType) (j : JitterType) (retryDelay : ℚ)
    (maxRetryDelay : Option ℚ) (retrycount : Nat) (r : ℚ) : ℚ :=
  let delay : ℚ :=
    match bt with
    | .linear => (retrycount : ℚ) * 1000
    | .static => retryDelay
    | .exponential =>
      let base := ((2 ^ retrycount - 1 : ℚ) / 2) * retryDelay
      match j with
      | .full => r * base
      | .equal => base / 2 + r * (base / 2)
      | .noneJ => base
  match maxRetryDelay with
  | some m => min delay m
  | none => delay

/-- The Retry-After gate at the top of the backoff promise executor
(src/index.ts lines 647–666).  Returns `some d₀` when execution proceeds with
initial `delay = d₀` (`d₀ = 0` means the strategy calculation will run), and
`none` when the executor rejects the promise with the current failure: header
present but unparseable, non-positive (a falsy or `≤ 0` value), or exceeding
`maxRetryAfter`. -/
def retryAfterGate (checkRetryAfter : Bool) (maxRetryAfter : ℚ)
    (response : Option Response) (now : ℤ) : Option ℚ :=
  if checkRetryAfter then
    match response with
    | some resp =>
      match resp.retryAfter with
      | some header =>
        match parseRetryAfter now header with
        | some retryAfter =>
          if 0 < retryAfter ∧ retryAfter ≤ maxRetryAfter then some retryAfter else none
        | none => none
      | none => some 0
    | none => some 0
  else some 0

end Rax

namespace Rax

/-- Behaviour of an optional async callback in one invocation: it either
resolves or rejects. -/
inductive CbBehavior where
  | resolves
  | rejects
deriving DecidableEq, Repr

/-- The callback environment of one `onError` invocation: the configured
`shouldRetry` (modelled by the boolean it would return for this failure),
`onError` and `onRetryAttempt` (modelled by whether they resolve or reject).
`none` means the callback is not configured. -/
structure CbEnv where
  shouldRetryCustom : Option Bool := none
  onErrorCb : Option CbBehavior := none
  onRetryCb : Option CbBehavior := none
deriving DecidableEq, Repr

/-- Observable events of one `onError` invocation, in the order in which the
awaited steps complete. -/
inductive StepEvent where
  | customShouldRetryCalled (result : Bool)
  | cbOnError
  | waited (delay : ℚ)
  | cbOnRetryAttempt (attemptSeen : Nat)
  | resubmitted
deriving DecidableEq, Repr

/-- How one `onError` invocation ends. -/
inductive StepResult where
  /-- `isCancel(error)`: the failure is re-thrown untouched. -/
  | rethrowCancel
  /-- eligibility said no: `throw axiosError` (the failure, policy attached). -/
  | rejectFailure
  /-- the awaited `onError` callback rejected; its rejection is the final error. -/
  | rejectOnErrorCb
  /-- the backoff promise rejected with the failure (Retry-After violation). -/
  | rejectBackoff
  /-- the awaited `onRetryAttempt` callback rejected; its rejection is the final error. -/
  | rejectOnRetryCb
  /-- the request is resubmitted after waiting `delay` milliseconds. -/
  | resubmit (delay : ℚ)
deriving DecidableEq, Repr

/-- Result of one `onError` invocation: the `raxConfig` attached to the
error's request configuration afterwards, the events that completed, and how
the invocation ended. -/
structure StepOut where
  cfg : Option RetryConfig
  events : List StepEvent
  result : StepResult
deriving DecidableEq, Repr

/-- Lines 613–615: `axiosError.config = axiosError.config || {}` and
`(axiosError.config as RaxConfig).raxConfig = {...config}`. -/
def attachCfg (error : AxiosErr) (c : RetryConfig) : AxiosErr :=
  { error with config := some { error.config.getD {} with raxConfig := some c } }

/-- Lines 617–623: initialize `errors` with this failure on the first error,
or append the failure to the existing array (shared by aliasing with the
attached copy).  Failures are identified by their arrival index `fid`. -/
def appendErrors (c : RetryConfig) (fid : Nat) : RetryConfig :=
  match c.errors with
  | none => { c with errors := some [fid] }
  | some l => { c with errors := some (l ++ [fid]) }

/-- One invocation of the interceptor's `onError` (src/index.ts lines
582–740), as a function of the callback environment, the failure identity
`fid`, the error object, `Date.now()` and the `Math.random()` draw `r`:

1. `isCancel(error)` ⇒ rethrow untouched (lines 583–585).
2. Resolve the config, attach a copy to `error.config`, record the failure in
   `errors` (lines 587–623).
3. Eligibility: with a custom `shouldRetry`, first the attempt-count ceiling,
   then the callback's boolean; otherwise `shouldRetryRequest` (lines
   625–643).  Ineligible ⇒ `throw axiosError`.
4. The backoff promise executor runs synchronously: the Retry-After gate may
   reject the promise (no counter increment), else `currentRetryAttempt` is
   incremented and the delay computed (lines 646–726).
5. `await config.onError(axiosError)` (lines 728–730) — note this runs after
   the executor, so a Retry-After rejection is only observed afterwards.
6. Await the backoff delay, then `onRetryAttempt`, then resubmit (lines
   733–739). -/
def onErrorStep (cb : CbEnv) (fid : Nat) (error : AxiosErr) (now : ℤ) (r : ℚ) :
    StepOut :=
  if error.isCancel then
    { cfg := getConfig error, events := [], result := .rethrowCancel }
  else
    let c := resolveConfig ((getConfig error).getD {})
    let c1 := appendErrors c fid
    let error1 := attachCfg error c1
    let elig : Bool × List StepEvent :=
      match cb.shouldRetryCustom with
      | some b =>
        if c1.currentRetryAttempt.getD 0 ≥ c1.retry.getD 0 then (false, [])
        else (b, [.customShouldRetryCalled b])
      | none => (shouldRetryRequest error1, [])
    if elig.1 = false then
      { cfg := some c1, events := elig.2, result := .rejectFailure }
    else
      match retryAfterGate (c1.checkRetryAfter.getD false) (c1.maxRetryAfter.getD 0)
          error.response now with
      | none =>
        match cb.onErrorCb with
        | some .rejects =>
          { cfg := some c1, events := elig.2 ++ [.cbOnError], result := .rejectOnErrorCb }
        | some .resolves =>
          { cfg := some c1, events := elig.2 ++ [.cbOnError], result := .rejectBackoff }
        | none => { cfg := some c1, events := elig.2, result := .rejectBackoff }
      | some d0 =>
        let retrycount := c1.currentRetryAttempt.getD 0 + 1
        let c2 := { c1 with currentRetryAttempt := some retrycount }
        let delay :=
          if d0 = 0 then
            calcDelay (c1.backoffType.getD .exponential) (c1.jitter.getD .noneJ)
              (c1.retryDelay.getD 0) c1.maxRetryDelay retrycount r
          else d0
        let finish : List StepEvent → StepOut := fun evPre =>
          let ev1 := elig.2 ++ evPre ++ [.waited delay]
          match cb.onRetryCb with
          | some .rejects =>
            { cfg := some c2, events := ev1 ++ [.cbOnRetryAttempt retrycount],
              result := .rejectOnRetryCb }
          | some .resolves =>
            { cfg := some c2, events := ev1 ++ [.cbOnRetryAttempt retrycount, .resubmitted],
              result := .resubmit delay }
          | none =>
            { cfg := some c2, events := ev1 ++ [.resubmitted], result := .resubmit delay }
        match cb.onErrorCb with
        | some .rejects =>
          { cfg := some c2, events := elig.2 ++ [.cbOnError], result := .rejectOnErrorCb }
        | some .resolves => finish [.cbOnError]
        | none => finish []

/-- What the transport does on one attempt of the chain. -/
inductive Outcome where
  | ok
  | errored (isCancel : Bool) (response : Option Response)
deriving DecidableEq, Repr

/-- The environment of a whole retry chain: the request method, the callback
behaviours per failure index, the transport outcome per attempt index, and
the `Math.random()` / `Date.now()` streams. -/
structure ChainEnv where
  method : Option String := some "GET"
  custom : Option (Nat → Bool) := none
  onErrorCbs : Option (Nat → CbBehavior) := none
  onRetryCbs : Option (Nat → CbBehavior) := none
  outcomes : Nat → Outcome
  rand : Nat → ℚ := fun _ => 0
  now : Nat → ℤ := fun _ => 0

/-- The callback environment the chain presents at failure index `k`. -/
def cbEnvAt (env : ChainEnv) (k : Nat) : CbEnv :=
  { shouldRetryCustom := env.custom.map fun f => f k
    onErrorCb := env.onErrorCbs.map fun f => f k
    onRetryCb := env.onRetryCbs.map fun f => f k }

/-- The error object the transport produces at attempt `k`: it carries the
request configuration (method and the `raxConfig` threaded from the previous
attempt). -/
def mkErr (env : ChainEnv) (isC : Bool) (resp : Option Response)
    (rc : Option RetryConfig) : AxiosErr :=
  { isCancel := isC, response := resp,
    config := some { method := env.method, raxConfig := rc } }

/-- Terminal state of a chain: success after `requests` issued requests, or a
rejection of kind `kind` with the final attached policy and the number of
requests issued. -/
inductive ChainResult where
  | success (requests : Nat)
  | rejected (kind : StepResult) (cfg : Option RetryConfig) (requests : Nat)
  | outOfFuel
deriving DecidableEq, Repr

/-- The attempt loop: attempt `k` is issued; on success the chain ends, on
failure the interceptor's `onError` runs and either resubmits (attempt
`k + 1`, with the updated policy threaded through the request configuration)
or terminates the chain.  `fuel` bounds the recursion; every theorem
instantiates it large enough that `outOfFuel` is unreachable. -/
def runChain (env : ChainEnv) : Nat → Nat → Option RetryConfig → ChainResult
  | 0, _, _ => .outOfFuel
  | fuel + 1, k, rc =>
    match env.outcomes k with
    | .ok => .success (k + 1)
    | .errored isC resp =>
      let out := onErrorStep (cbEnvAt env k) k (mkErr env isC resp rc) (env.now k)
        (env.rand k)
      match out.result with
      | .resubmit _ => runChain env fuel (k + 1) out.cfg
      | res => .rejected res out.cfg (k + 1)

end Rax

namespace Rax

lemma contains_iff_mem (l : List String) (s : String) : l.contains s = true ↔ s ∈ l :=
  List.elem_iff

/-- The pre-jitter exponential delay `((2^n − 1) / 2) * retryDelay` is positive
when `1 ≤ n` and `0 < retryDelay`. -/
lemma expBase_pos (bd : ℚ) (n : Nat) (hn : 1 ≤ n) (hbd : 0 < bd) :
    0 < ((2 ^ n - 1 : ℚ) / 2) * bd := by
  have h2 : (2 : ℚ) ^ 1 ≤ (2 : ℚ) ^ n := by
    exact pow_le_pow_right₀ (by norm_num) hn
  have : (1 : ℚ) ≤ 2 ^ n - 1 := by
    simp at h2
    linarith
  have hq : (0 : ℚ) < (2 ^ n - 1) / 2 := by linarith
  exact mul_pos hq hbd

end Rax

namespace Rax

/-- C3.  For a committed retry with updated attempt number `n ≥ 1` and no
Retry-After delay in effect, the strategy delay (src/index.ts lines 691–723)
satisfies: `static` gives `retryDelay` (`baseDelay`) under every jitter
setting; `linear` gives `n × 1000` regardless of `baseDelay` and under every
jitter setting (jitter is a no-op outside the exponential branch);
`exponential` without jitter gives `((2^n − 1) / 2) × baseDelay` — 50 ms then
150 ms for `baseDelay = 100`; `jitter = full` lands in `[0, delay)` and
`jitter = equal` in `[delay/2, delay)` where `delay` is the pre-jitter
exponential value; and setting `maxRetryDelay` clamps the delay of every
strategy/jitter combination to `min delay maxRetryDelay`. -/
theorem calcDelay_strategy_spec (bd : ℚ) (n : Nat) (r : ℚ)
    (hn : 1 ≤ n) (hr0 : 0 ≤ r) (hr1 : r < 1) (hbd : 0 < bd) :
    (∀ j, calcDelay .static j bd none n r = bd) ∧
    (∀ j, calcDelay .linear j bd none n r = (n : ℚ) * 1000) ∧
    calcDelay .exponential .noneJ bd none n r = ((2 ^ n - 1 : ℚ) / 2) * bd ∧
    calcDelay .exponential .noneJ 100 none 1 r = 50 ∧
    calcDelay .exponential .noneJ 100 none 2 r = 150 ∧
    (0 ≤ calcDelay .exponential .full bd none n r ∧
      calcDelay .exponential .full bd none n r < ((2 ^ n - 1 : ℚ) / 2) * bd) ∧
    ((((2 ^ n - 1 : ℚ) / 2) * bd) / 2 ≤ calcDelay .exponential .equal bd none n r ∧
      calcDelay .exponential .equal bd none n r < ((2 ^ n - 1 : ℚ) / 2) * bd) ∧
    (∀ bt j m, calcDelay bt j bd (some m) n r = min (calcDelay bt j bd none n r) m) := by
  have hbase := expBase_pos bd n hn hbd
  refine ⟨?_, ?_, ?_, ?_, ?_, ⟨?_, ?_⟩, ⟨?_, ?_⟩, ?_⟩
  · intro j; cases j <;> rfl
  · intro j; cases j <;> rfl
  · rfl
  · norm_num [calcDelay]
  · norm_num [calcDelay]
  · exact mul_nonneg hr0 hbase.le
  · exact mul_lt_of_lt_one_left hbase hr1
  · simp only [calcDelay]
    nlinarith
  · simp only [calcDelay]
    nlinarith
  · intro bt j m; cases bt <;> cases j <;> rfl

/-- Witness for `calcDelay_strategy_spec` at `baseDelay = 100`, `n = 1`,
`r = 1/2`. -/
theorem calcDelay_strategy_spec_witness :
    (∀ j, calcDelay .static j 100 none 1 (1/2) = 100) ∧
    (∀ j, calcDelay .linear j 100 none 1 (1/2) = (1 : ℚ) * 1000) ∧
    calcDelay .exponential .noneJ 100 none 1 (1/2) = ((2 ^ 1 - 1 : ℚ) / 2) * 100 ∧
    calcDelay .exponential .noneJ 100 none 1 (1/2) = 50 ∧
    calcDelay .exponential .noneJ 100 none 2 (1/2) = 150 ∧
    (0 ≤ calcDelay .exponential .full 100 none 1 (1/2) ∧
      calcDelay .exponential .full 100 none 1 (1/2) < ((2 ^ 1 - 1 : ℚ) / 2) * 100) ∧
    ((((2 ^ 1 - 1 : ℚ) / 2) * 100) / 2 ≤ calcDelay .exponential .equal 100 none 1 (1/2) ∧
      calcDelay .exponential .equal 100 none 1 (1/2) < ((2 ^ 1 - 1 : ℚ) / 2) * 100) ∧
    (∀ bt j m, calcDelay bt j 100 (some m) 1 (1/2) =
      min (calcDelay bt j 100 none 1 (1/2)) m) := by
  have h := calcDelay_strategy_spec 100 1 (1/2) (by decide) (by norm_num) (by norm_num)
    (by norm_num)
  simpa using h

end Rax

namespace Rax

/-- C2.  For a failure carrying a resolved policy (all four decision fields
present) and a nonempty request method, `shouldRetryRequest` — the exported
default eligibility — returns `true` iff `retry` is not 0, the current
attempt count is strictly below `retry`, the uppercased method is a member of
`httpMethodsToRetry`, and, when the response carries a (truthy) status, that
status lies within at least one inclusive `[min, max]` pair of
`statusCodesToRetry`; a failure with no response always passes the
status-range check. -/
theorem shouldRetryRequest_iff
    (n cur : Nat) (ms : List String) (rs : List (Nat × Nat)) (rd mra mrd : Option ℚ)
    (bt : Option BackoffType) (jt : Option JitterType) (cra : Option Bool)
    (es : Option (List Nat)) (m : String) (resp : Option Response) (hm0 : m ≠ "") :
    shouldRetryRequest
      { isCancel := false, response := resp,
        config := some ⟨some m, some
          { retry := some n, currentRetryAttempt := some cur,
            retryDelay := rd, httpMethodsToRetry := some ms,
            statusCodesToRetry := some rs, backoffType := bt, jitter := jt,
            checkRetryAfter := cra, maxRetryAfter := mra, maxRetryDelay := mrd,
            errors := es }⟩ } = true ↔
      (n ≠ 0 ∧ cur < n ∧ jsToUpper m ∈ ms ∧
        ∀ rp, resp = some rp → rp.status ≠ 0 →
          ∃ p ∈ rs, p.1 ≤ rp.status ∧ rp.status ≤ p.2) := by
  cases resp with
  | none =>
    simp [shouldRetryRequest, getConfig, hm0, contains_iff_mem, Nat.not_le, and_assoc]
  | some rp =>
    by_cases hst : rp.status = 0 <;>
      simp [shouldRetryRequest, getConfig, hm0, contains_iff_mem, Nat.not_le, hst,
        List.any_eq_true, and_assoc]

end Rax

namespace Rax

/-- Witness for `shouldRetryRequest_iff`: a GET failure with status 500 under
the default resolved policy. -/
theorem shouldRetryRequest_iff_witness :
    shouldRetryRequest
      { isCancel := false, response := some ⟨500, none⟩,
        config := some ⟨some "get", some
          { retry := some 3, currentRetryAttempt := some 0,
            httpMethodsToRetry := some defaultMethods,
            statusCodesToRetry := some retryRanges }⟩ } = true ↔
      (3 ≠ 0 ∧ 0 < 3 ∧ jsToUpper "get" ∈ defaultMethods ∧
        ∀ rp, (some (⟨500, none⟩ : Response)) = some rp → rp.status ≠ 0 →
          ∃ p ∈ retryRanges, p.1 ≤ rp.status ∧ rp.status ≤ p.2) :=
  shouldRetryRequest_iff 3 0 defaultMethods retryRanges none none none none none none
    none "get" (some ⟨500, none⟩) (by decide)

end Rax

namespace Rax

/-- C9.  `getConfig` applied to any failure returns exactly the policy
attached to that failure's configuration (so the caller can read
`currentRetryAttempt`, `errors` and derive `retriesRemaining =
retry − currentRetryAttempt` from the returned object), and returns absent
when the failure carries no configuration.  The source function only reads:
its embedding is a pure projection, so no mutation is possible. -/
theorem getConfig_accessor (e : AxiosErr) (c : RetryConfig) :
    getConfig (attachCfg e c) = some c ∧
    (e.config = none → getConfig e = none) ∧
    (∀ rc, e.config = some rc → getConfig e = rc.raxConfig) := by
  refine ⟨rfl, ?_, ?_⟩
  · intro h; simp [getConfig, h]
  · intro rc h; simp [getConfig, h]

/-- Witness for `getConfig_accessor`: round-trip through `attachCfg` and the
no-configuration case, at concrete inputs. -/
theorem getConfig_accessor_witness :
    getConfig (attachCfg {} { retry := some 3 }) = some { retry := some 3 } ∧
    getConfig ({} : AxiosErr) = none :=
  ⟨(getConfig_accessor {} { retry := some 3 }).1,
    (getConfig_accessor {} { retry := some 3 }).2.1 rfl⟩

/-- C8.  A cancelled failure is re-raised unchanged as the very first step of
`onError` (src/index.ts lines 583–585): no policy resolution, no history
append, no eligibility check, no delay, no callback, no resubmission — the
attached policy (if any) is exactly what it was before, the event list is
empty, and the result is the rethrown cancellation. -/
theorem cancellation_passthrough (cb : CbEnv) (fid : Nat) (e : AxiosErr)
    (now : ℤ) (r : ℚ) (h : e.isCancel = true) :
    onErrorStep cb fid e now r =
      { cfg := getConfig e, events := [], result := .rethrowCancel } := by
  simp [onErrorStep, h]

/-- Witness for `cancellation_passthrough` at a concrete cancelled failure. -/
theorem cancellation_passthrough_witness :
    onErrorStep {} 0 { isCancel := true } 0 0 =
      { cfg := none, events := [], result := .rethrowCancel } :=
  cancellation_passthrough {} 0 { isCancel := true } 0 0 rfl

end Rax

namespace Rax

lemma GET_toUpper : jsToUpper "GET" = "GET" := by decide

/-- A first failure (attempt 0) that is eligible under the default policy and
carries a `Retry-After` header `h`: a GET whose response has status 429.  The
caller set `maxRetryAfter := M` and arbitrary `backoffType`/`jitter`. -/
def raProbe (M : ℚ) (bt : Option BackoffType) (jt : Option JitterType)
    (h : RAHeader) : AxiosErr :=
  { isCancel := false, response := some ⟨429, some h⟩,
    config := some ⟨some "GET", some
      { maxRetryAfter := some M, backoffType := bt, jitter := jt }⟩ }

/-- The policy attached while processing the first failure of `raProbe`:
defaults resolved and the failure recorded, attempt count still 0. -/
def raNoIncCfg (M : ℚ) (bt : Option BackoffType) (jt : Option JitterType) :
    RetryConfig :=
  appendErrors
    (resolveConfig { maxRetryAfter := some M, backoffType := bt, jitter := jt }) 0

/-- C4.  Retry-After handling for an eligible failure with
`checkRetryAfter` on (its default): the header parses as numeric seconds
× 1000 ms, else as an HTTP date minus `now`, else not at all; if the parse
fails, or the value is ≤ 0, or it exceeds `maxRetryAfter`, the chain aborts by
rejecting with the current failure — no strategy-delay fallback (no `waited`
event, no resubmission) and no `currentRetryAttempt` increment; otherwise the
parsed value is used verbatim as the delay and the strategy computation is
skipped (the result does not depend on `backoffType`, `jitter` or
`retryDelay`, which are universally quantified here). -/
theorem retryAfter_spec (now : ℤ) (h : RAHeader) (M : ℚ) (bt : Option BackoffType)
    (jt : Option JitterType) (r : ℚ) :
    (∀ v dv, parseRetryAfter now ⟨some v, dv⟩ = some (v * 1000)) ∧
    (∀ dt, parseRetryAfter now ⟨none, some dt⟩ = some ((dt - now : ℤ) : ℚ)) ∧
    parseRetryAfter now ⟨none, none⟩ = none ∧
    (raNoIncCfg M bt jt).currentRetryAttempt = some 0 ∧
    (parseRetryAfter now h = none →
      onErrorStep {} 0 (raProbe M bt jt h) now r =
        { cfg := some (raNoIncCfg M bt jt), events := [], result := .rejectBackoff }) ∧
    (∀ ra, parseRetryAfter now h = some ra → ¬(0 < ra ∧ ra ≤ M) →
      onErrorStep {} 0 (raProbe M bt jt h) now r =
        { cfg := some (raNoIncCfg M bt jt), events := [], result := .rejectBackoff }) ∧
    (∀ ra, parseRetryAfter now h = some ra → 0 < ra → ra ≤ M →
      onErrorStep {} 0 (raProbe M bt jt h) now r =
        { cfg := some { raNoIncCfg M bt jt with currentRetryAttempt := some 1 },
          events := [.waited ra, .resubmitted], result := .resubmit ra }) := by
  refine ⟨fun v dv => rfl, fun dt => rfl, rfl, rfl, ?_, ?_, ?_⟩
  · intro hpa
    simp [onErrorStep, raProbe, raNoIncCfg, attachCfg, appendErrors, resolveConfig,
      getConfig, shouldRetryRequest, retryAfterGate, defaultMethods, retryRanges, hpa, GET_toUpper]
  · intro ra hpa hcond
    simp [onErrorStep, raProbe, raNoIncCfg, attachCfg, appendErrors, resolveConfig,
      getConfig, shouldRetryRequest, retryAfterGate, defaultMethods, retryRanges, hpa,
      hcond, GET_toUpper]
  · intro ra hpa h1 h2
    simp [onErrorStep, raProbe, raNoIncCfg, attachCfg, appendErrors, resolveConfig,
      getConfig, shouldRetryRequest, retryAfterGate, defaultMethods, retryRanges, hpa,
      h1, h2, h1.ne', GET_toUpper]

end Rax

namespace Rax

/-- Witness for `retryAfter_spec`: a `Retry-After: 5` header (5 s = 5000 ms)
aborts the chain when `maxRetryAfter = 1000`, and is used verbatim as the
delay under the default `maxRetryAfter`. -/
theorem retryAfter_spec_witness :
    onErrorStep {} 0 (raProbe 1000 none none ⟨some 5, none⟩) 0 0 =
      { cfg := some (raNoIncCfg 1000 none none), events := [],
        result := .rejectBackoff } ∧
    onErrorStep {} 0 (raProbe 300000 none none ⟨some 5, none⟩) 0 0 =
      { cfg := some { raNoIncCfg 300000 none none with currentRetryAttempt := some 1 },
        events := [.waited 5000, .resubmitted], result := .resubmit 5000 } :=
  ⟨(retryAfter_spec 0 ⟨some 5, none⟩ 1000 none none 0).2.2.2.2.2.1 5000
      (by norm_num [parseRetryAfter]) (by norm_num),
    (retryAfter_spec 0 ⟨some 5, none⟩ 300000 none none 0).2.2.2.2.2.2 5000
      (by norm_num [parseRetryAfter]) (by norm_num) (by norm_num)⟩

/-- A first eligible failure whose caller set both `maxRetryAfter := M` and
`maxRetryDelay := mrd`, carrying a `Retry-After` header `h`. -/
def raClampProbe (M mrd : ℚ) (h : RAHeader) : AxiosErr :=
  { isCancel := false, response := some ⟨429, some h⟩,
    config := some ⟨some "GET", some
      { maxRetryAfter := some M, maxRetryDelay := some mrd }⟩ }

/-- The policy attached while processing the first failure of `raClampProbe`. -/
def raClampCfg (M mrd : ℚ) : RetryConfig :=
  appendErrors
    (resolveConfig { maxRetryAfter := some M, maxRetryDelay := some mrd }) 0

/-- C10.  The `maxRetryDelay` ceiling applies only to strategy-computed
delays: a valid Retry-After delay `ra` (`0 < ra ≤ maxRetryAfter`) is waited
verbatim even when `maxRetryDelay` is set and smaller than `ra` (the
`Math.min` clamp sits inside the `delay === 0` branch, which a Retry-After
delay skips), while every strategy/jitter-computed delay is clamped to at
most `maxRetryDelay`. -/
theorem retryAfter_ignores_maxRetryDelay (now : ℤ) (h : RAHeader) (M mrd ra r : ℚ)
    (hpa : parseRetryAfter now h = some ra) (h1 : 0 < ra) (h2 : ra ≤ M)
    (h3 : mrd < ra) :
    onErrorStep {} 0 (raClampProbe M mrd h) now r =
      { cfg := some { raClampCfg M mrd with currentRetryAttempt := some 1 },
        events := [.waited ra, .resubmitted], result := .resubmit ra } ∧
    (∀ bt j bd n, calcDelay bt j bd (some mrd) n r ≤ mrd) := by
  constructor
  · simp [onErrorStep, raClampProbe, raClampCfg, attachCfg, appendErrors, resolveConfig,
      getConfig, shouldRetryRequest, retryAfterGate, defaultMethods, retryRanges, hpa,
      h1, h2, h1.ne', GET_toUpper]
  · intro bt j bd n
    cases bt <;> cases j <;> exact min_le_right _ _

/-- Witness for `retryAfter_ignores_maxRetryDelay`: `Retry-After: 5`
(5000 ms) with `maxRetryDelay = 200`. -/
theorem retryAfter_ignores_maxRetryDelay_witness :
    onErrorStep {} 0 (raClampProbe 300000 200 ⟨some 5, none⟩) 0 0 =
      { cfg := some { raClampCfg 300000 200 with currentRetryAttempt := some 1 },
        events := [.waited 5000, .resubmitted], result := .resubmit 5000 } ∧
    (∀ bt j bd n, calcDelay bt j bd (some 200) n 0 ≤ 200) :=
  retryAfter_ignores_maxRetryDelay 0 ⟨some 5, none⟩ 300000 200 5000 0
    (by norm_num [parseRetryAfter]) (by norm_num) (by norm_num) (by norm_num)

end Rax

namespace Rax

/-- The canonical perpetually-failing retryable endpoint: every attempt of a
GET fails with status 500 and no Retry-After header; no callbacks, no custom
`shouldRetry`. -/
def env500 : ChainEnv := { outcomes := fun _ => .errored false (some ⟨500, none⟩) }

/-- The error object produced at each attempt of `env500`. -/
def err500 (rc : Option RetryConfig) : AxiosErr :=
  { isCancel := false, response := some ⟨500, none⟩,
    config := some ⟨some "GET", rc⟩ }

lemma mkErr_env500 (rc : Option RetryConfig) :
    mkErr env500 false (some ⟨500, none⟩) rc = err500 rc := rfl

lemma cbEnvAt_env500 (k : Nat) : cbEnvAt env500 k = {} := rfl

/-- The policy state the canonical chain carries into invocation `k`: the
caller's `retry := N`, all other fields resolved to their defaults, attempt
count `k`, and `errors` history `es`. -/
def chainCfg (N k : Nat) (es : Option (List Nat)) : RetryConfig :=
  { retry := some N, currentRetryAttempt := some k, retryDelay := some 100,
    httpMethodsToRetry := some defaultMethods, statusCodesToRetry := some retryRanges,
    backoffType := some .exponential, checkRetryAfter := some true,
    maxRetryAfter := some 300000, errors := es }

/-- `errors` evolution of lines 617–623 as a list function. -/
def pushErr (es : Option (List Nat)) (fid : Nat) : List Nat :=
  match es with
  | none => [fid]
  | some l => l ++ [fid]

lemma appendErrors_push (c : RetryConfig) (fid : Nat) :
    appendErrors c fid = { c with errors := some (pushErr c.errors fid) } := by
  cases h : c.errors <;> simp [appendErrors, pushErr, h]

lemma resolve_chainCfg (N k : Nat) (es : Option (List Nat)) :
    resolveConfig (chainCfg N k es) = chainCfg N k es := rfl

lemma resolve_initCfg (N : Nat) :
    resolveConfig { retry := some N } = chainCfg N 0 none := rfl

/-- The delay of the canonical chain's committed retry number `k + 1`. -/
def chainDelay (k : Nat) (r : ℚ) : ℚ :=
  calcDelay .exponential .noneJ 100 none (k + 1) r

/-- Committed retry of the canonical chain: at attempt count `k < N` the
default eligibility passes, the failure is recorded, the counter becomes
`k + 1` and the request is resubmitted after the exponential delay. -/
lemma step500_commit (N k fid : Nat) (es : Option (List Nat)) (now : ℤ) (r : ℚ)
    (hk : k < N) :
    onErrorStep {} fid (err500 (some (chainCfg N k es))) now r =
      { cfg := some (chainCfg N (k + 1) (some (pushErr es fid))),
        events := [.waited (chainDelay k r), .resubmitted],
        result := .resubmit (chainDelay k r) } := by
  have hne : N ≠ 0 := by omega
  have hnotle : ¬ N ≤ k := by omega
  simp [onErrorStep, err500, chainCfg, chainDelay, attachCfg, appendErrors_push,
    resolveConfig, getConfig, shouldRetryRequest, retryAfterGate, pushErr,
    defaultMethods, retryRanges, GET_toUpper, hne, hnotle]

/-- Exhaustion step of the canonical chain: at attempt count `N` (the
ceiling) eligibility fails and the failure is re-raised, with the counter
untouched and the failure still recorded in the history. -/
lemma step500_stop (N fid : Nat) (es : Option (List Nat)) (now : ℤ) (r : ℚ) :
    onErrorStep {} fid (err500 (some (chainCfg N N es))) now r =
      { cfg := some (chainCfg N N (some (pushErr es fid))),
        events := [], result := .rejectFailure } := by
  by_cases hne : N = 0 <;>
    simp [onErrorStep, err500, chainCfg, attachCfg, appendErrors_push,
      resolveConfig, getConfig, shouldRetryRequest, retryAfterGate, pushErr,
      defaultMethods, retryRanges, GET_toUpper, hne]

/-- First invocation of the canonical chain with the caller's bare policy
`{ retry := N }`, `0 < N`: resolution fills the defaults and the retry is
committed. -/
lemma step500_first (N : Nat) (now : ℤ) (r : ℚ) (hN : 0 < N) :
    onErrorStep {} 0 (err500 (some { retry := some N })) now r =
      { cfg := some (chainCfg N 1 (some [0])),
        events := [.waited (chainDelay 0 r), .resubmitted],
        result := .resubmit (chainDelay 0 r) } := by
  have hne : N ≠ 0 := by omega
  simp [onErrorStep, err500, chainCfg, chainDelay, attachCfg, appendErrors_push,
    resolveConfig, getConfig, shouldRetryRequest, retryAfterGate, pushErr,
    defaultMethods, retryRanges, GET_toUpper, hne, hN]

/-- First invocation with `retry = 0`: retries disabled, immediate re-raise
(with the failure recorded). -/
lemma step500_first_zero (now : ℤ) (r : ℚ) :
    onErrorStep {} 0 (err500 (some { retry := some 0 })) now r =
      { cfg := some (chainCfg 0 0 (some [0])), events := [],
        result := .rejectFailure } := by
  simp [onErrorStep, err500, chainCfg, attachCfg, appendErrors_push,
    resolveConfig, getConfig, shouldRetryRequest, retryAfterGate, pushErr,
    defaultMethods, retryRanges, GET_toUpper]

lemma env500_outcomes (k : Nat) :
    env500.outcomes k = .errored false (some ⟨500, none⟩) := rfl

lemma env500_now (k : Nat) : env500.now k = 0 := rfl

lemma env500_rand (k : Nat) : env500.rand k = 0 := rfl

/-- Tail of the canonical chain: from invocation `k` with `k + j = N` and the
steady policy state, the chain ends rejected with the failure after request
`N + 1`, attempt count `N` and history `[0, …, N]`. -/
lemma runChain_tail (N : Nat) : ∀ j k, k + j = N →
    runChain env500 (j + 1) k (some (chainCfg N k (some (List.range k)))) =
      .rejected .rejectFailure (some (chainCfg N N (some (List.range (N + 1)))))
        (N + 1) := by
  intro j
  induction j with
  | zero =>
    intro k hk
    have hkN : k = N := by omega
    subst hkN
    simp only [runChain, env500_outcomes, env500_now, env500_rand, cbEnvAt_env500,
      mkErr_env500, step500_stop k k (some (List.range k))]
    simp [pushErr, List.range_succ]
  | succ j ih =>
    intro k hk
    have hkN : k < N := by omega
    simp only [runChain, env500_outcomes, env500_now, env500_rand, cbEnvAt_env500,
      mkErr_env500, step500_commit N k k (some (List.range k)) 0 0 hkN]
    simp only [pushErr]
    rw [show List.range k ++ [k] = List.range (k + 1) from (List.range_succ k).symm]
    exact ih (k + 1) (by omega)

end Rax

namespace Rax

/-- C1.  For every policy with `retry = N` against the perpetually failing
retryable endpoint `env500`, the chain issues exactly `N + 1` requests and
terminates rejected with the failure itself, the final policy carrying
`currentRetryAttempt = N` (so `0 ≤ currentRetryAttempt ≤ retry` holds at the
retries-exhausted terminal state). -/
theorem chain_exhausts_after_N_plus_1_requests (N : Nat) :
    runChain env500 (N + 1) 0 (some { retry := some N }) =
      .rejected .rejectFailure (some (chainCfg N N (some (List.range (N + 1)))))
        (N + 1) ∧
    (chainCfg N N (some (List.range (N + 1)))).currentRetryAttempt = some N := by
  refine ⟨?_, rfl⟩
  cases N with
  | zero =>
    simp only [runChain, env500_outcomes, env500_now, env500_rand, cbEnvAt_env500,
      mkErr_env500, step500_first_zero]
    simp [chainCfg, List.range_succ]
  | succ n =>
    simp only [runChain, env500_outcomes, env500_now, env500_rand, cbEnvAt_env500,
      mkErr_env500, step500_first (n + 1) 0 0 (Nat.succ_pos n)]
    rw [show ([0] : List Nat) = List.range 1 from rfl]
    exact runChain_tail (n + 1) n 1 (by omega)

end Rax

namespace Rax

/-- The canonical failing endpoint with a custom `shouldRetry` that always
returns `true`. -/
def envCustomTrue : ChainEnv :=
  { outcomes := fun _ => .errored false (some ⟨500, none⟩),
    custom := some fun _ => true }

lemma envCustomTrue_outcomes (k : Nat) :
    envCustomTrue.outcomes k = .errored false (some ⟨500, none⟩) := rfl

lemma envCustomTrue_now (k : Nat) : envCustomTrue.now k = 0 := rfl

lemma envCustomTrue_rand (k : Nat) : envCustomTrue.rand k = 0 := rfl

lemma cbEnvAt_envCustomTrue (k : Nat) :
    cbEnvAt envCustomTrue k = { shouldRetryCustom := some true } := rfl

lemma mkErr_envCustomTrue (rc : Option RetryConfig) :
    mkErr envCustomTrue false (some ⟨500, none⟩) rc = err500 rc := rfl

/-- Ceiling check with a custom `shouldRetry`: at `currentRetryAttempt ≥
retry` the failure is re-raised without the callback ever being consulted
(no `customShouldRetryCalled` event, whatever `b` it would return). -/
lemma stepCustom_ceiling (b : Bool) (N k fid : Nat) (es : Option (List Nat))
    (now : ℤ) (r : ℚ) (hk : N ≤ k) :
    onErrorStep { shouldRetryCustom := some b } fid
      (err500 (some (chainCfg N k es))) now r =
      { cfg := some (chainCfg N k (some (pushErr es fid))), events := [],
        result := .rejectFailure } := by
  simp [onErrorStep, err500, chainCfg, attachCfg, appendErrors_push, resolveConfig,
    getConfig, pushErr, hk]

/-- Below the ceiling, the custom `shouldRetry` is called (exactly one
`customShouldRetryCalled` event) and a `false` answer re-raises the failure. -/
lemma stepCustom_false (N k fid : Nat) (es : Option (List Nat)) (now : ℤ) (r : ℚ)
    (hk : k < N) :
    onErrorStep { shouldRetryCustom := some false } fid
      (err500 (some (chainCfg N k es))) now r =
      { cfg := some (chainCfg N k (some (pushErr es fid))),
        events := [.customShouldRetryCalled false], result := .rejectFailure } := by
  have hnotle : ¬ N ≤ k := by omega
  simp [onErrorStep, err500, chainCfg, attachCfg, appendErrors_push, resolveConfig,
    getConfig, pushErr, hnotle]

/-- Below the ceiling, a `true` answer from the custom `shouldRetry` commits
the retry. -/
lemma stepCustom_true (N k fid : Nat) (es : Option (List Nat)) (now : ℤ) (r : ℚ)
    (hk : k < N) :
    onErrorStep { shouldRetryCustom := some true } fid
      (err500 (some (chainCfg N k es))) now r =
      { cfg := some (chainCfg N (k + 1) (some (pushErr es fid))),
        events := [.customShouldRetryCalled true, .waited (chainDelay k r),
          .resubmitted],
        result := .resubmit (chainDelay k r) } := by
  have hnotle : ¬ N ≤ k := by omega
  simp [onErrorStep, err500, chainCfg, chainDelay, attachCfg, appendErrors_push,
    resolveConfig, getConfig, retryAfterGate, pushErr, hnotle]

/-- First invocation with the caller's bare policy and an always-`true`
custom `shouldRetry`, `0 < N`. -/
lemma stepCustomTrue_first (N : Nat) (now : ℤ) (r : ℚ) (hN : 0 < N) :
    onErrorStep { shouldRetryCustom := some true } 0
      (err500 (some { retry := some N })) now r =
      { cfg := some (chainCfg N 1 (some [0])),
        events := [.customShouldRetryCalled true, .waited (chainDelay 0 r),
          .resubmitted],
        result := .resubmit (chainDelay 0 r) } := by
  have hnotle : ¬ N ≤ 0 := by omega
  simp [onErrorStep, err500, chainCfg, chainDelay, attachCfg, appendErrors_push,
    resolveConfig, getConfig, retryAfterGate, pushErr, hnotle]

/-- First invocation with `retry = 0` and a custom `shouldRetry`: the ceiling
check wins immediately; the callback is not consulted. -/
lemma stepCustom_first_zero (b : Bool) (now : ℤ) (r : ℚ) :
    onErrorStep { shouldRetryCustom := some b } 0
      (err500 (some { retry := some 0 })) now r =
      { cfg := some (chainCfg 0 0 (some [0])), events := [],
        result := .rejectFailure } := by
  simp [onErrorStep, err500, chainCfg, attachCfg, appendErrors_push, resolveConfig,
    getConfig, pushErr]

/-- Tail of the custom-`shouldRetry` chain, mirroring `runChain_tail`. -/
lemma runChainCustom_tail (N : Nat) : ∀ j k, k + j = N →
    runChain envCustomTrue (j + 1) k (some (chainCfg N k (some (List.range k)))) =
      .rejected .rejectFailure (some (chainCfg N N (some (List.range (N + 1)))))
        (N + 1) := by
  intro j
  induction j with
  | zero =>
    intro k hk
    have hkN : k = N := by omega
    subst hkN
    simp only [runChain, envCustomTrue_outcomes, envCustomTrue_now, envCustomTrue_rand,
      cbEnvAt_envCustomTrue, mkErr_envCustomTrue,
      stepCustom_ceiling true k k k (some (List.range k)) 0 0 le_rfl]
    simp [pushErr, List.range_succ]
  | succ j ih =>
    intro k hk
    have hkN : k < N := by omega
    simp only [runChain, envCustomTrue_outcomes, envCustomTrue_now, envCustomTrue_rand,
      cbEnvAt_envCustomTrue, mkErr_envCustomTrue,
      stepCustom_true N k k (some (List.range k)) 0 0 hkN]
    simp only [pushErr]
    rw [show List.range k ++ [k] = List.range (k + 1) from (List.range_succ k).symm]
    exact ih (k + 1) (by omega)

/-- C5.  With a custom `shouldRetry`: at `currentRetryAttempt ≥ retry` the
failure is re-raised without the callback ever being called (the ceiling wins
over custom logic); below the ceiling the callback is called exactly once and
its boolean alone decides re-raise (`false`) versus committed retry (`true`);
consequently an always-`true` `shouldRetry` still yields exactly `N + 1`
requests for `retry = N`. -/
theorem custom_shouldRetry_capped :
    (∀ b N k fid es now r, N ≤ k →
      onErrorStep { shouldRetryCustom := some b } fid
        (err500 (some (chainCfg N k es))) now r =
        { cfg := some (chainCfg N k (some (pushErr es fid))), events := [],
          result := .rejectFailure }) ∧
    (∀ N k fid es now r, k < N →
      onErrorStep { shouldRetryCustom := some false } fid
        (err500 (some (chainCfg N k es))) now r =
        { cfg := some (chainCfg N k (some (pushErr es fid))),
          events := [.customShouldRetryCalled false], result := .rejectFailure }) ∧
    (∀ N k fid es now r, k < N →
      onErrorStep { shouldRetryCustom := some true } fid
        (err500 (some (chainCfg N k es))) now r =
        { cfg := some (chainCfg N (k + 1) (some (pushErr es fid))),
          events := [.customShouldRetryCalled true, .waited (chainDelay k r),
            .resubmitted],
          result := .resubmit (chainDelay k r) }) ∧
    (∀ N, runChain envCustomTrue (N + 1) 0 (some { retry := some N }) =
      .rejected .rejectFailure (some (chainCfg N N (some (List.range (N + 1)))))
        (N + 1)) := by
  refine ⟨stepCustom_ceiling, stepCustom_false, stepCustom_true, ?_⟩
  intro N
  cases N with
  | zero =>
    simp only [runChain, envCustomTrue_outcomes, envCustomTrue_now, envCustomTrue_rand,
      cbEnvAt_envCustomTrue, mkErr_envCustomTrue, stepCustom_first_zero]
    simp [chainCfg, List.range_succ]
  | succ n =>
    simp only [runChain, envCustomTrue_outcomes, envCustomTrue_now, envCustomTrue_rand,
      cbEnvAt_envCustomTrue, mkErr_envCustomTrue,
      stepCustomTrue_first (n + 1) 0 0 (Nat.succ_pos n)]
    rw [show ([0] : List Nat) = List.range 1 from rfl]
    exact runChainCustom_tail (n + 1) n 1 (by omega)

/-- Witness for `custom_shouldRetry_capped` at `retry = 2`, attempt counts
2 (ceiling) and 0 (below). -/
theorem custom_shouldRetry_capped_witness :
    onErrorStep { shouldRetryCustom := some true } 2
      (err500 (some (chainCfg 2 2 (some [0, 1])))) 0 0 =
      { cfg := some (chainCfg 2 2 (some (pushErr (some [0, 1]) 2))), events := [],
        result := .rejectFailure } ∧
    onErrorStep { shouldRetryCustom := some false } 0
      (err500 (some (chainCfg 2 0 none))) 0 0 =
      { cfg := some (chainCfg 2 0 (some (pushErr none 0))),
        events := [.customShouldRetryCalled false], result := .rejectFailure } ∧
    onErrorStep { shouldRetryCustom := some true } 0
      (err500 (some (chainCfg 2 0 none))) 0 0 =
      { cfg := some (chainCfg 2 1 (some (pushErr none 0))),
        events := [.customShouldRetryCalled true, .waited (chainDelay 0 0),
          .resubmitted],
        result := .resubmit (chainDelay 0 0) } ∧
    runChain envCustomTrue 3 0 (some { retry := some 2 }) =
      .rejected .rejectFailure (some (chainCfg 2 2 (some (List.range 3)))) 3 :=
  ⟨custom_shouldRetry_capped.1 true 2 2 2 (some [0, 1]) 0 0 (by omega),
    custom_shouldRetry_capped.2.1 2 0 0 none 0 0 (by omega),
    custom_shouldRetry_capped.2.2.1 2 0 0 none 0 0 (by omega),
    custom_shouldRetry_capped.2.2.2 2⟩

end Rax

namespace Rax

/-- C7.  Callback lifecycle of a handled eligible failure, in awaited order:
`onError` completes first (exactly one `cbOnError` event, before the wait);
then the wait for the computed delay; then `onRetryAttempt`, which observes
the already-incremented attempt count `k + 1`; then resubmission.  A
rejection from `onError` aborts the chain before the wait with the callback's
rejection as final error (whatever `onRetryAttempt` would do); a rejection
from `onRetryAttempt` aborts after the wait with that rejection as final
error and no resubmission. -/
theorem callback_lifecycle (N k fid : Nat) (es : Option (List Nat)) (now : ℤ)
    (r : ℚ) (hk : k < N) :
    (∀ rb, onErrorStep { onErrorCb := some .rejects, onRetryCb := rb } fid
      (err500 (some (chainCfg N k es))) now r =
      { cfg := some (chainCfg N (k + 1) (some (pushErr es fid))),
        events := [.cbOnError], result := .rejectOnErrorCb }) ∧
    onErrorStep { onErrorCb := some .resolves, onRetryCb := some .resolves } fid
      (err500 (some (chainCfg N k es))) now r =
      { cfg := some (chainCfg N (k + 1) (some (pushErr es fid))),
        events := [.cbOnError, .waited (chainDelay k r), .cbOnRetryAttempt (k + 1),
          .resubmitted],
        result := .resubmit (chainDelay k r) } ∧
    onErrorStep { onErrorCb := some .resolves, onRetryCb := some .rejects } fid
      (err500 (some (chainCfg N k es))) now r =
      { cfg := some (chainCfg N (k + 1) (some (pushErr es fid))),
        events := [.cbOnError, .waited (chainDelay k r), .cbOnRetryAttempt (k + 1)],
        result := .rejectOnRetryCb } := by
  have hne : N ≠ 0 := by omega
  have hnotle : ¬ N ≤ k := by omega
  refine ⟨fun rb => ?_, ?_, ?_⟩ <;>
    simp [onErrorStep, err500, chainCfg, chainDelay, attachCfg, appendErrors_push,
      resolveConfig, getConfig, shouldRetryRequest, retryAfterGate, pushErr,
      defaultMethods, retryRanges, GET_toUpper, hne, hnotle]

/-- Witness for `callback_lifecycle` at `retry = 3`, first failure. -/
theorem callback_lifecycle_witness :
    (∀ rb, onErrorStep { onErrorCb := some .rejects, onRetryCb := rb } 0
      (err500 (some (chainCfg 3 0 none))) 0 0 =
      { cfg := some (chainCfg 3 1 (some (pushErr none 0))),
        events := [.cbOnError], result := .rejectOnErrorCb }) ∧
    onErrorStep { onErrorCb := some .resolves, onRetryCb := some .resolves } 0
      (err500 (some (chainCfg 3 0 none))) 0 0 =
      { cfg := some (chainCfg 3 1 (some (pushErr none 0))),
        events := [.cbOnError, .waited (chainDelay 0 0), .cbOnRetryAttempt 1,
          .resubmitted],
        result := .resubmit (chainDelay 0 0) } ∧
    onErrorStep { onErrorCb := some .resolves, onRetryCb := some .rejects } 0
      (err500 (some (chainCfg 3 0 none))) 0 0 =
      { cfg := some (chainCfg 3 1 (some (pushErr none 0))),
        events := [.cbOnError, .waited (chainDelay 0 0), .cbOnRetryAttempt 1],
        result := .rejectOnRetryCb } :=
  callback_lifecycle 3 0 0 none 0 0 (by omega)

end Rax

namespace Rax

lemma resolveConfig_errors (c : RetryConfig) : (resolveConfig c).errors = c.errors := rfl

lemma resolveConfig_attempt (c : RetryConfig) :
    (resolveConfig c).currentRetryAttempt = some (c.currentRetryAttempt.getD 0) := rfl

/-- State evolution of one handled (non-cancelled) failure, over every
callback environment and branch: the attached policy always records exactly
the incoming history plus this failure (append-only, `[fid]` when the history
starts here), and whenever the step ends by re-raising the failure itself
(eligibility stop or Retry-After violation) the attempt counter is the
incoming one, unincremented. -/
lemma onErrorStep_state (cb : CbEnv) (fid : Nat) (e : AxiosErr) (now : ℤ) (r : ℚ)
    (hc : e.isCancel = false) :
    ∃ c', (onErrorStep cb fid e now r).cfg = some c' ∧
      c'.errors = some (pushErr ((getConfig e).getD {}).errors fid) ∧
      (((onErrorStep cb fid e now r).result = .rejectFailure ∨
        (onErrorStep cb fid e now r).result = .rejectBackoff) →
        c'.currentRetryAttempt =
          some (((getConfig e).getD {}).currentRetryAttempt.getD 0)) := by
  simp only [onErrorStep, hc, Bool.false_eq_true, if_false, appendErrors_push]
  repeat' split
  all_goals refine ⟨_, rfl, ?_, ?_⟩ <;>
    simp [resolveConfig_errors, resolveConfig_attempt]

end Rax

namespace Rax

/-- C6 (amended).  The error history is append-only: every handled failure is
appended to the incoming history (which starts as `[fid]` at the first
failure — the original failure is the first element — and grows in arrival
order), and at every terminal rejection in which the engine re-raises the
failure itself (eligibility stop or Retry-After violation) the attempt
counter is not incremented; combined over the canonical exhausted chain,
the final history is `[0, …, N]` with the original failure first and
`errors.length = N + 1 = currentRetryAttempt + 1`.  (At a terminal rejection
produced by a callback rejection the counter was already incremented for the
committed retry, so there `errors.length = currentRetryAttempt`; see the
counterexample.) -/
theorem errorHistory_append_only_and_length :
    (∀ cb fid e now r, e.isCancel = false →
      ∃ c', (onErrorStep cb fid e now r).cfg = some c' ∧
        c'.errors = some (pushErr ((getConfig e).getD {}).errors fid) ∧
        (((onErrorStep cb fid e now r).result = .rejectFailure ∨
          (onErrorStep cb fid e now r).result = .rejectBackoff) →
          c'.currentRetryAttempt =
            some (((getConfig e).getD {}).currentRetryAttempt.getD 0))) ∧
    (∀ N, runChain env500 (N + 1) 0 (some { retry := some N }) =
        .rejected .rejectFailure
          (some (chainCfg N N (some (List.range (N + 1))))) (N + 1) ∧
      (List.range (N + 1)).length = N + 1 ∧
      (List.range (N + 1)).head? = some 0 ∧
      (chainCfg N N (some (List.range (N + 1)))).currentRetryAttempt = some N) := by
  refine ⟨onErrorStep_state, fun N => ⟨?_, by simp, ?_, rfl⟩⟩
  · cases N with
    | zero =>
      simp only [runChain, env500_outcomes, env500_now, env500_rand, cbEnvAt_env500,
        mkErr_env500, step500_first_zero]
      simp [chainCfg, List.range_succ]
    | succ n =>
      simp only [runChain, env500_outcomes, env500_now, env500_rand, cbEnvAt_env500,
        mkErr_env500, step500_first (n + 1) 0 0 (Nat.succ_pos n)]
      rw [show ([0] : List Nat) = List.range 1 from rfl]
      exact runChain_tail (n + 1) n 1 (by omega)
  · simp [List.range_succ_eq_map]

/-- Witness for `errorHistory_append_only_and_length`: one concrete handled
failure and the canonical chain at `N = 2`. -/
theorem errorHistory_append_only_and_length_witness :
    (∃ c', (onErrorStep {} 0 (err500 (some (chainCfg 2 0 none))) 0 0).cfg = some c' ∧
      c'.errors = some (pushErr ((getConfig (err500 (some (chainCfg 2 0 none)))).getD
        {}).errors 0) ∧
      (((onErrorStep {} 0 (err500 (some (chainCfg 2 0 none))) 0 0).result =
          .rejectFailure ∨
        (onErrorStep {} 0 (err500 (some (chainCfg 2 0 none))) 0 0).result =
          .rejectBackoff) →
        c'.currentRetryAttempt =
          some (((getConfig (err500 (some (chainCfg 2 0 none)))).getD
            {}).currentRetryAttempt.getD 0))) ∧
    runChain env500 3 0 (some { retry := some 2 }) =
      .rejected .rejectFailure (some (chainCfg 2 2 (some (List.range 3)))) 3 :=
  ⟨errorHistory_append_only_and_length.1 {} 0 (err500 (some (chainCfg 2 0 none))) 0 0
      rfl,
    (errorHistory_append_only_and_length.2 2).1⟩

/-- The canonical failing endpoint whose `onRetryAttempt` callback always
rejects. -/
def envRetryCbRejects : ChainEnv :=
  { outcomes := fun _ => .errored false (some ⟨500, none⟩),
    onRetryCbs := some fun _ => .rejects }

/-- C6 counterexample.  A chain whose `onRetryAttempt` rejects at the first
committed retry terminates in a final rejection (the callback's rejection)
whose attached policy has `currentRetryAttempt = 1` but `errors = [0]` of
length 1: at this terminal rejection `errors.length = currentRetryAttempt`,
not `currentRetryAttempt + 1`, refuting the claim for terminal rejections in
general. -/
theorem errorHistory_length_counterexample :
    runChain envRetryCbRejects 1 0 (some { retry := some 3 }) =
      .rejected .rejectOnRetryCb (some (chainCfg 3 1 (some [0]))) 1 ∧
    ((chainCfg 3 1 (some [0])).errors.getD []).length = 1 ∧
    (chainCfg 3 1 (some [0])).currentRetryAttempt = some 1 ∧
    (1 : Nat) ≠ 1 + 1 := by
  exact ⟨by decide, rfl, rfl, by decide⟩

end Rax
